import Mathlib

/-!
Shallow embedding of `src/tweet_search.py` (hiroshi-matsuda/tweet-search).

The program fetches tweets from a paginated search API, resolves `t.co`
redirect tokens embedded in tweet texts, filters tweets through four regexes,
and appends raw (`tweets.jsonl`) and filtered (`filtered.txt`) records to
logs, persisting a resume cursor in `config.json`.

Modelling decisions (each noted again at the definition it concerns):
* Machine integers are `Int`/`Nat` (Python has arbitrary-precision ints, so no
  wrap-around is modelled).
* Network responses are an oracle: the search API is a list of page responses
  consumed in request order (`none` models a request that raised, which the
  code turns into an empty page after a sleep; the sleep itself has no
  observable effect on the data flow).  Redirect resolution is an oracle
  `String → Option String` giving, per token, the final
  `unquote_plus`-decoded destination URL, or `none` for failure/timeout.
* `re.compile(p).search(s)` for the four filter patterns is abstracted as an
  opaque predicate `String → String → Bool` (pattern, subject): the filter
  claims are independent of the regex engine itself.  The `t.co` URL pattern,
  by contrast, is embedded exactly (see `matchTco`).
* File contents are lists of parsed records; a run is a pure function from
  (oracle, CLI args, files) to files or an error.
-/

structure RawStatus where
  id : Int
  created_at : String
  full_text : String
  user_name : String

deriving DecidableEq

structure Tweet where
  id : Int
  created_at : String
  text : String
  user : String

deriving DecidableEq, Inhabited

structure Req where
  q : String
  count : Nat
  max_id : Option Int
  since_id : Option Int

deriving DecidableEq

def request_params (r : Req) : List (String × String) :=
  (if r.q ≠ "" then [("q", r.q)] else []) ++
  (if r.count ≠ 0 then [("count", toString r.count)] else []) ++
  [("include_entities", "false"), ("tweet_mode", "extended")] ++
  (match r.max_id with
   | some n => if n ≠ 0 then [("max_id", toString n)] else []
   | none => []) ++
  (match r.since_id with
   | some n => if n ≠ 0 then [("since_id", toString n)] else []
   | none => [])

def PageResp := Option (List RawStatus)

deriving instance DecidableEq for PageResp

def pageStatuses : PageResp → List RawStatus
  | none => []
  | some ss => ss

def isAlnumAscii (c : Char) : Bool :=
  ('0' ≤ c && c ≤ '9') || ('a' ≤ c && c ≤ 'z') || ('A' ≤ c && c ≤ 'Z')

def dropLit : List Char → List Char → Option (List Char)
  | [], cs => some cs
  | _ :: _, [] => none
  | p :: ps, c :: cs => if p = c then dropLit ps cs else none

def httpsT : List Char := ['h', 't', 't', 'p', 's', ':', '/', '/', 't']

def coSlash : List Char := ['c', 'o', '/']

def matchTco (cs : List Char) : Option (List Char × List Char) :=
  match dropLit httpsT cs with
  | none => none
  | some cs1 =>
    match cs1 with
    | [] => none
    | d :: cs2 =>
      if d = '\n' then none
      else
        match dropLit coSlash cs2 with
        | none => none
        | some cs3 =>
          if cs3.takeWhile isAlnumAscii = [] then none
          else some (httpsT ++ d :: coSlash ++ cs3.takeWhile isAlnumAscii,
                     cs3.dropWhile isAlnumAscii)

def resolveScanF (resolve : String → Option String) : Nat → List Char → List Char
  | 0, cs => cs
  | fuel + 1, cs =>
    match matchTco cs with
    | some (tok, rest) =>
      (match resolve (String.mk tok) with
       | some url => url.data
       | none => tok) ++ resolveScanF resolve fuel rest
    | none =>
      match cs with
      | [] => []
      | c :: cs2 => c :: resolveScanF resolve fuel cs2

def resolveScan (resolve : String → Option String) (cs : List Char) : List Char :=
  resolveScanF resolve cs.length cs

def resolve_redirects (resolve : String → Option String) (text : String) : String :=
  String.mk (resolveScan resolve text.data)

inductive TSeg
  | gap (c : Char)
  | tok (t : List Char)

deriving DecidableEq

def TSeg.chars : TSeg → List Char
  | .gap c => [c]
  | .tok t => t

def segmentsTcoF : Nat → List Char → List TSeg
  | 0, _ => []
  | fuel + 1, cs =>
    match matchTco cs with
    | some (tok, rest) => .tok tok :: segmentsTcoF fuel rest
    | none =>
      match cs with
      | [] => []
      | c :: cs2 => .gap c :: segmentsTcoF fuel cs2

def segmentsTco (cs : List Char) : List TSeg :=
  segmentsTcoF cs.length cs

def renderTSeg (resolve : String → Option String) : TSeg → List Char
  | .gap c => [c]
  | .tok t =>
    match resolve (String.mk t) with
    | some url => url.data
    | none => t

def tcoTokens (cs : List Char) : List String :=
  (segmentsTco cs).filterMap fun s =>
    match s with
    | .tok t => some (String.mk t)
    | .gap _ => none

def mkTweet (f : String → String) (s : RawStatus) : Tweet :=
  { id := s.id, created_at := s.created_at, text := f s.full_text,
    user := s.user_name }

def mkReq (q : String) (max_id since_id : Option Int) : Req :=
  { q := q, count := 100, max_id := max_id, since_id := since_id }

def minId : List Tweet → Int
  | [] => 0
  | t :: ts => ts.foldl (fun m u => min m u.id) t.id

def search_loop (f : String → String) (q : String) (since : Option Int) (mp : Int) :
    List PageResp → Nat → Nat → List Tweet → Option Int →
    Option (List Tweet × List (Req × PageResp))
  | [], _, _, _, _ => none
  | resp :: rest, count, retry, tweets, max_id =>
    if pageStatuses resp = [] then
      if retry + 1 ≥ 3 then
        some (tweets, [(mkReq q max_id since, resp)])
      else
        (search_loop f q since mp rest count (retry + 1) tweets max_id).map
          fun r => (r.1, (mkReq q max_id since, resp) :: r.2)
    else
      if mp ≠ 0 ∧ mp ≤ (count : Int) + 1 then
        some (tweets ++ (pageStatuses resp).map (mkTweet f),
              [(mkReq q max_id since, resp)])
      else
        (search_loop f q since mp rest (count + 1) 0
            (tweets ++ (pageStatuses resp).map (mkTweet f))
            (some (minId (tweets ++ (pageStatuses resp).map (mkTweet f)) - 1))).map
          fun r => (r.1, (mkReq q max_id since, resp) :: r.2)

def search_tweets (f : String → String) (responses : List PageResp)
    (latest_tweet_id : Option Int) (search_keywords : String) (max_pages : Int) :
    Option (List Tweet × List (Req × PageResp)) :=
  search_loop f search_keywords latest_tweet_id max_pages responses 0 0 [] none

def sentMaxIds (tr : List (Req × PageResp)) : List Int :=
  tr.filterMap fun p => p.1.max_id

def filter_tweets (search : String → String → Bool) (tweets : List Tweet)
    (accept_regexp_text reject_regexp_text accept_regexp_user reject_regexp_user :
      String) : List Tweet :=
  tweets.filter fun t =>
    search accept_regexp_text t.text && !search reject_regexp_text t.text &&
    search accept_regexp_user t.user && !search reject_regexp_user t.user

def pyCharReplace (old new : Char) (s : String) : String :=
  String.mk (s.data.map fun c => if c = old then new else c)

def print_tweet (formatTime : String → String) (t : Tweet) : String :=
  String.intercalate " "
    ["https://twitter.com/i/web/status/" ++ toString t.id,
     formatTime t.created_at,
     t.user,
     pyCharReplace '\n' ' ' (pyCharReplace '\t' ' ' t.text)]

structure Config where
  search_keywords : String
  accept_regexp_text : String
  reject_regexp_text : String
  accept_regexp_user : String
  reject_regexp_user : String
  auth_json_path : String
  latest_tweet_id : Option Int

deriving DecidableEq

def configKeys : List String :=
  ["search_keywords", "accept_regexp_text", "reject_regexp_text",
   "accept_regexp_user", "reject_regexp_user", "auth_json_path",
   "latest_tweet_id"]

structure Args where
  search_keywords : Option String
  accept_regexp_text : Option String
  reject_regexp_text : Option String
  accept_regexp_user : Option String
  reject_regexp_user : Option String
  recreate_filtered_txt : Bool
  auth_json_path : Option String
  max_pages : Int

deriving DecidableEq

structure FileState where
  config : Option Config
  tweetsLog : List Tweet
  filteredLog : List String

deriving DecidableEq

def initialFS : FileState := { config := none, tweetsLog := [], filteredLog := [] }

inductive MainErr
  | keywordsRequired
  | keyError (k : String)

deriving DecidableEq

structure Env where
  responses : List PageResp
  resolve : String → Option String
  regexSearch : String → String → Bool
  formatTime : String → String

def mergeConfig (args : Args) (cfg : Option Config) :
    Except MainErr (Config × Option String) :=
  match cfg with
  | some c =>
    let reset : Option Int × Option String :=
      match args.search_keywords with
      | none => (c.latest_tweet_id, none)
      | some sk =>
        if sk = c.search_keywords then (c.latest_tweet_id, none)
        else (none, if sk ≠ "" then some c.search_keywords else none)
    .ok ({ search_keywords := args.search_keywords.getD c.search_keywords,
           accept_regexp_text := args.accept_regexp_text.getD c.accept_regexp_text,
           reject_regexp_text := args.reject_regexp_text.getD c.reject_regexp_text,
           accept_regexp_user := args.accept_regexp_user.getD c.accept_regexp_user,
           reject_regexp_user := args.reject_regexp_user.getD c.reject_regexp_user,
           auth_json_path := args.auth_json_path.getD c.auth_json_path,
           latest_tweet_id := reset.1 }, reset.2)
  | none =>
    match args.search_keywords with
    | none => .error .keywordsRequired
    | some sk =>
      .ok ({ search_keywords := sk,
             accept_regexp_text := args.accept_regexp_text.getD "",
             reject_regexp_text := args.reject_regexp_text.getD "(?!)",
             accept_regexp_user := args.accept_regexp_user.getD "",
             reject_regexp_user := args.reject_regexp_user.getD "(?!)",
             auth_json_path := args.auth_json_path.getD "./auth.json",
             latest_tweet_id := none }, none)

def oldKeywordsGate (old : Option String) : Except MainErr Unit :=
  match old with
  | some s =>
    if s ≠ "" then
      if "search_condition" ∈ configKeys then .ok () else .error (.keyError "search_condition")
    else .ok ()
  | none => .ok ()

def sortById (l : List Tweet) : List Tweet :=
  l.insertionSort fun a b => a.id ≤ b.id

def runMain (env : Env) (args : Args) (fs : FileState) :
    Option (Except MainErr (FileState × List (Req × PageResp))) :=
  match mergeConfig args fs.config with
  | .error e => some (.error e)
  | .ok (cfg, old) =>
    match oldKeywordsGate old with
    | .error e => some (.error e)
    | .ok () =>
      match search_tweets (resolve_redirects env.resolve) env.responses
          cfg.latest_tweet_id cfg.search_keywords args.max_pages with
      | none => none
      | some (fetched, tr) =>
        let tweets := sortById fetched
        let prev_tweets := if args.recreate_filtered_txt then fs.tweetsLog else []
        if prev_tweets = [] ∧ tweets = [] then
          some (.ok (fs, tr))
        else
          let tweets2 := sortById tweets
          let total_tweets := prev_tweets ++ tweets2
          let latest := (total_tweets.getLastD default).id
          let filtered := filter_tweets env.regexSearch total_tweets
            cfg.accept_regexp_text cfg.reject_regexp_text
            cfg.accept_regexp_user cfg.reject_regexp_user
          some (.ok
            ({ config := some { cfg with latest_tweet_id := some latest },
               tweetsLog := fs.tweetsLog ++ tweets2,
               filteredLog :=
                 (if args.recreate_filtered_txt then [] else fs.filteredLog) ++
                   filtered.map (print_tweet env.formatTime) }, tr))

def c8resolve : String → Option String :=
  fun s => if s = "https://t.co/abc" then some "https://example.com/page" else none

def tXcoChars (c : Char) : List Char :=
  'h' :: 't' :: 't' :: 'p' :: 's' :: ':' :: '/' :: '/' :: 't' :: c ::
  'c' :: 'o' :: '/' :: 'a' :: 'b' :: 'c' :: []

def c10resolve : String → Option String :=
  fun s => if s = "https://tXco/abc" then some "RESOLVED" else none

def MIdInv (tweets : List Tweet) (max_id : Option Int) : Prop :=
  ∀ m, max_id = some m → tweets ≠ [] ∧ m = minId tweets - 1

def wS10 : RawStatus :=
  { id := 10, created_at := "d", full_text := "x", user_name := "u" }

def c1Config : Config :=
  { search_keywords := "foo", accept_regexp_text := "",
    reject_regexp_text := "(?!)", accept_regexp_user := "",
    reject_regexp_user := "(?!)", auth_json_path := "./auth.json",
    latest_tweet_id := some 500 }

def c1Args : Args :=
  { search_keywords := some "bar", accept_regexp_text := none,
    reject_regexp_text := none, accept_regexp_user := none,
    reject_regexp_user := none, recreate_filtered_txt := false,
    auth_json_path := none, max_pages := 0 }

def w9Config : Config :=
  { search_keywords := "kw", accept_regexp_text := "",
    reject_regexp_text := "(?!)", accept_regexp_user := "",
    reject_regexp_user := "(?!)", auth_json_path := "./auth.json",
    latest_tweet_id := some 5 }

def w9FS : FileState :=
  { config := some w9Config,
    tweetsLog := [{ id := 5, created_at := "d", text := "x", user := "u" }],
    filteredLog := ["line"] }

def w9Env : Env :=
  { responses := [some [], some [], some []],
    resolve := fun _ => none,
    regexSearch := fun p _ => p = "",
    formatTime := fun s => s }

def w9Args : Args :=
  { search_keywords := none, accept_regexp_text := none,
    reject_regexp_text := none, accept_regexp_user := none,
    reject_regexp_user := none, recreate_filtered_txt := false,
    auth_json_path := none, max_pages := 0 }

def HonorResp (req : Req) (resp : PageResp) : Prop :=
  ((pageStatuses resp).map RawStatus.id).Nodup ∧
  ∀ s ∈ pageStatuses resp, 0 < s.id ∧
    (∀ m, req.since_id = some m → m < s.id) ∧
    (∀ m, req.max_id = some m → s.id ≤ m)

instance : DecidablePred (fun p : Req × PageResp => HonorResp p.1 p.2) := by
  intro p
  unfold HonorResp
  infer_instance

def HonorTrace (tr : List (Req × PageResp)) : Prop :=
  ∀ p ∈ tr, HonorResp p.1 p.2

instance (tr : List (Req × PageResp)) : Decidable (HonorTrace tr) := by
  unfold HonorTrace
  exact List.decidableBAll _ tr

def SameQuery (args : Args) (fs : FileState) : Prop :=
  match fs.config, args.search_keywords with
  | some c, some s => s = c.search_keywords
  | _, _ => True

inductive GoodReach : FileState → Prop
  | init : GoodReach initialFS
  | step {fs fs2 : FileState} {env : Env} {args : Args}
      {tr : List (Req × PageResp)} :
      GoodReach fs → SameQuery args fs →
      runMain env args fs = some (.ok (fs2, tr)) → HonorTrace tr →
      GoodReach fs2

instance : IsTrans Tweet (fun a b => a.id < b.id) :=
  ⟨fun _ _ _ h1 h2 => lt_trans h1 h2⟩

instance : IsTotal Tweet (fun a b => a.id ≤ b.id) :=
  ⟨fun a b => Int.le_total a.id b.id⟩

instance : IsTrans Tweet (fun a b => a.id ≤ b.id) :=
  ⟨fun _ _ _ h1 h2 => le_trans h1 h2⟩

def FetchAcc (since : Option Int) (tweets : List Tweet) (max_id : Option Int) : Prop :=
  (tweets.map Tweet.id).Nodup ∧
  (∀ t ∈ tweets, 0 < t.id ∧ ∀ m, since = some m → m < t.id) ∧
  (max_id = none → tweets = []) ∧
  (∀ m, max_id = some m → ∀ t ∈ tweets, m < t.id)

def INV (fs : FileState) : Prop :=
  List.Chain' (fun a b => a.id < b.id) fs.tweetsLog ∧
  (∀ t ∈ fs.tweetsLog, 0 < t.id) ∧
  match fs.config with
  | none => fs.tweetsLog = []
  | some c => fs.tweetsLog ≠ [] ∧
      c.latest_tweet_id = some ((fs.tweetsLog.getLastD default).id)

def wEnvA : Env :=
  { responses := [some [wS10]], resolve := fun _ => none,
    regexSearch := fun p _ => p = "", formatTime := fun s => s }

def wArgsA : Args :=
  { search_keywords := some "kw", accept_regexp_text := none,
    reject_regexp_text := none, accept_regexp_user := none,
    reject_regexp_user := none, recreate_filtered_txt := false,
    auth_json_path := none, max_pages := 1 }

def wT10 : Tweet := { id := 10, created_at := "d", text := "x", user := "u" }

def wCfgA : Config :=
  { search_keywords := "kw", accept_regexp_text := "",
    reject_regexp_text := "(?!)", accept_regexp_user := "",
    reject_regexp_user := "(?!)", auth_json_path := "./auth.json",
    latest_tweet_id := some 10 }

def wFSA : FileState :=
  { config := some wCfgA,
    tweetsLog := [wT10],
    filteredLog := ["https://twitter.com/i/web/status/10 d u x"] }

def wS11 : RawStatus :=
  { id := 11, created_at := "d", full_text := "y", user_name := "v" }

def wEnvB : Env :=
  { responses := [some [wS11]], resolve := fun _ => none,
    regexSearch := fun p _ => p = "", formatTime := fun s => s }

def wArgsB : Args :=
  { search_keywords := some "kb", accept_regexp_text := none,
    reject_regexp_text := none, accept_regexp_user := none,
    reject_regexp_user := none, recreate_filtered_txt := false,
    auth_json_path := none, max_pages := 1 }

def wT11 : Tweet := { id := 11, created_at := "d", text := "y", user := "v" }

def wCfgB : Config :=
  { search_keywords := "kb", accept_regexp_text := "",
    reject_regexp_text := "(?!)", accept_regexp_user := "",
    reject_regexp_user := "(?!)", auth_json_path := "./auth.json",
    latest_tweet_id := some 11 }

def wFSB : FileState :=
  { config := some wCfgB,
    tweetsLog := [wT11],
    filteredLog := ["https://twitter.com/i/web/status/11 d v y"] }

def cxS20 : RawStatus :=
  { id := 20, created_at := "d", full_text := "x", user_name := "u" }

def cxT20 : Tweet := { id := 20, created_at := "d", text := "x", user := "u" }

def cx3Env : Env :=
  { responses := [some [cxS20]], resolve := fun _ => none,
    regexSearch := fun p _ => p = "", formatTime := fun s => s }

def cx3Args1 : Args :=
  { search_keywords := some "", accept_regexp_text := none,
    reject_regexp_text := none, accept_regexp_user := none,
    reject_regexp_user := none, recreate_filtered_txt := false,
    auth_json_path := none, max_pages := 1 }

def cx3Args2 : Args :=
  { search_keywords := some "b", accept_regexp_text := none,
    reject_regexp_text := none, accept_regexp_user := none,
    reject_regexp_user := none, recreate_filtered_txt := false,
    auth_json_path := none, max_pages := 1 }

def cx3Line : String := "https://twitter.com/i/web/status/20 d u x"

def cx3Cfg1 : Config :=
  { search_keywords := "", accept_regexp_text := "",
    reject_regexp_text := "(?!)", accept_regexp_user := "",
    reject_regexp_user := "(?!)", auth_json_path := "./auth.json",
    latest_tweet_id := some 20 }

def cx3Cfg2 : Config :=
  { search_keywords := "b", accept_regexp_text := "",
    reject_regexp_text := "(?!)", accept_regexp_user := "",
    reject_regexp_user := "(?!)", auth_json_path := "./auth.json",
    latest_tweet_id := some 20 }

def cx3FS1 : FileState :=
  { config := some cx3Cfg1, tweetsLog := [cxT20], filteredLog := [cx3Line] }

def cx3FS2 : FileState :=
  { config := some cx3Cfg2, tweetsLog := [cxT20, cxT20],
    filteredLog := [cx3Line, cx3Line] }

def cxS30 : RawStatus :=
  { id := 30, created_at := "d", full_text := "x", user_name := "u" }

def cxS7 : RawStatus :=
  { id := 7, created_at := "d", full_text := "z", user_name := "w" }

def cxT30 : Tweet := { id := 30, created_at := "d", text := "x", user := "u" }

def cxT7 : Tweet := { id := 7, created_at := "d", text := "z", user := "w" }

def cx2Env1 : Env :=
  { responses := [some [cxS30]], resolve := fun _ => none,
    regexSearch := fun p _ => p = "", formatTime := fun s => s }

def cx2Env2 : Env :=
  { responses := [some [cxS7]], resolve := fun _ => none,
    regexSearch := fun p _ => p = "", formatTime := fun s => s }

def cx2Args1 : Args :=
  { search_keywords := some "", accept_regexp_text := none,
    reject_regexp_text := none, accept_regexp_user := none,
    reject_regexp_user := none, recreate_filtered_txt := false,
    auth_json_path := none, max_pages := 1 }

def cx2Args2 : Args :=
  { search_keywords := some "b", accept_regexp_text := none,
    reject_regexp_text := none, accept_regexp_user := none,
    reject_regexp_user := none, recreate_filtered_txt := false,
    auth_json_path := none, max_pages := 1 }

def cx2Cfg1 : Config :=
  { search_keywords := "", accept_regexp_text := "",
    reject_regexp_text := "(?!)", accept_regexp_user := "",
    reject_regexp_user := "(?!)", auth_json_path := "./auth.json",
    latest_tweet_id := some 30 }

def cx2Cfg2 : Config :=
  { search_keywords := "b", accept_regexp_text := "",
    reject_regexp_text := "(?!)", accept_regexp_user := "",
    reject_regexp_user := "(?!)", auth_json_path := "./auth.json",
    latest_tweet_id := some 7 }

def cx2FS1 : FileState :=
  { config := some cx2Cfg1, tweetsLog := [cxT30],
    filteredLog := ["https://twitter.com/i/web/status/30 d u x"] }

def cx2FS2 : FileState :=
  { config := some cx2Cfg2, tweetsLog := [cxT30, cxT7],
    filteredLog := ["https://twitter.com/i/web/status/30 d u x",
                    "https://twitter.com/i/web/status/7 d w z"] }

theorem dropLit_append {p cs r : List Char} (h : dropLit p cs = some r) :
    cs = p ++ r := by
  induction p generalizing cs with
  | nil => simp [dropLit] at h; simp [h]
  | cons a ps ih =>
    cases cs with
    | nil => simp [dropLit] at h
    | cons c cs' =>
      simp only [dropLit] at h
      split at h
      · simp_all [ih h]
      · exact absurd h (by simp)

theorem dropLit_self_append (p r : List Char) : dropLit p (p ++ r) = some r := by
  induction p with
  | nil => rfl
  | cons a ps ih => simp [dropLit, ih]

theorem matchTco_append {cs t r : List Char} (h : matchTco cs = some (t, r)) :
    t ++ r = cs ∧ t ≠ [] := by
  unfold matchTco at h
  split at h
  · exact absurd h (by simp)
  · next cs1 h1 =>
    split at h
    · exact absurd h (by simp)
    · next d cs2 =>
      split at h
      · exact absurd h (by simp)
      · split at h
        · exact absurd h (by simp)
        · next cs3 h2 =>
          split at h
          · exact absurd h (by simp)
          · simp only [Option.some.injEq, Prod.mk.injEq] at h
            obtain ⟨ht, hr⟩ := h
            subst ht hr
            refine ⟨?_, by simp [httpsT]⟩
            rw [dropLit_append h1, dropLit_append h2]
            simp [List.takeWhile_append_dropWhile]

theorem matchTco_length {cs t r : List Char} (h : matchTco cs = some (t, r)) :
    r.length < cs.length := by
  obtain ⟨happ, hne⟩ := matchTco_append h
  have : t.length + r.length = cs.length := by
    rw [← happ]; simp
  have : 0 < t.length := List.length_pos.mpr hne
  omega

theorem matchTco_nil : matchTco [] = none := rfl

theorem segmentsTcoF_fuel :
    ∀ (m n : Nat) (cs : List Char), cs.length ≤ m → cs.length ≤ n →
      segmentsTcoF m cs = segmentsTcoF n cs := by
  intro m
  induction m with
  | zero =>
    intro n cs hm _
    have : cs = [] := List.length_eq_zero.mp (Nat.le_zero.mp hm)
    subst this
    cases n with
    | zero => rfl
    | succ n => simp [segmentsTcoF, matchTco_nil]
  | succ m ih =>
    intro n cs hm hn
    cases n with
    | zero =>
      have : cs = [] := List.length_eq_zero.mp (Nat.le_zero.mp hn)
      subst this
      simp [segmentsTcoF, matchTco_nil]
    | succ n =>
      simp only [segmentsTcoF]
      cases h : matchTco cs with
      | some pr =>
        obtain ⟨tok, rest⟩ := pr
        have hl := matchTco_length h
        simp only [ih n rest (by omega) (by omega)]
      | none =>
        cases cs with
        | nil => rfl
        | cons c cs2 =>
          simp only [List.length_cons] at hm hn
          simp only [ih n cs2 (by omega) (by omega)]

theorem segmentsTco_match {cs tok rest : List Char}
    (h : matchTco cs = some (tok, rest)) :
    segmentsTco cs = .tok tok :: segmentsTco rest := by
  have hl := matchTco_length h
  unfold segmentsTco
  have hpos : cs.length = (cs.length - 1) + 1 := by omega
  rw [hpos]
  simp only [segmentsTcoF, h]
  rw [segmentsTcoF_fuel (cs.length - 1) rest.length rest (by omega) le_rfl]

theorem segmentsTco_nil : segmentsTco [] = [] := rfl

theorem segmentsTco_gap {c : Char} {cs : List Char}
    (h : matchTco (c :: cs) = none) :
    segmentsTco (c :: cs) = .gap c :: segmentsTco cs := by
  unfold segmentsTco
  simp only [List.length_cons, segmentsTcoF, h]

theorem resolveScanF_fuel (resolve : String → Option String) :
    ∀ (m n : Nat) (cs : List Char), cs.length ≤ m → cs.length ≤ n →
      resolveScanF resolve m cs = resolveScanF resolve n cs := by
  intro m
  induction m with
  | zero =>
    intro n cs hm _
    have : cs = [] := List.length_eq_zero.mp (Nat.le_zero.mp hm)
    subst this
    cases n with
    | zero => rfl
    | succ n => simp [resolveScanF, matchTco_nil]
  | succ m ih =>
    intro n cs hm hn
    cases n with
    | zero =>
      have : cs = [] := List.length_eq_zero.mp (Nat.le_zero.mp hn)
      subst this
      simp [resolveScanF, matchTco_nil]
    | succ n =>
      simp only [resolveScanF]
      cases h : matchTco cs with
      | some pr =>
        obtain ⟨tok, rest⟩ := pr
        have hl := matchTco_length h
        simp only [ih n rest (by omega) (by omega)]
      | none =>
        cases cs with
        | nil => rfl
        | cons c cs2 =>
          simp only [List.length_cons] at hm hn
          simp only [ih n cs2 (by omega) (by omega)]

theorem resolveScan_match {resolve : String → Option String} {cs tok rest : List Char}
    (h : matchTco cs = some (tok, rest)) :
    resolveScan resolve cs =
      (match resolve (String.mk tok) with
       | some url => url.data
       | none => tok) ++ resolveScan resolve rest := by
  have hl := matchTco_length h
  unfold resolveScan
  have hpos : cs.length = (cs.length - 1) + 1 := by omega
  rw [hpos]
  simp only [resolveScanF, h]
  rw [resolveScanF_fuel resolve (cs.length - 1) rest.length rest (by omega) le_rfl]

theorem resolveScan_nil {resolve : String → Option String} :
    resolveScan resolve [] = [] := rfl

theorem resolveScan_gap {resolve : String → Option String} {c : Char} {cs : List Char}
    (h : matchTco (c :: cs) = none) :
    resolveScan resolve (c :: cs) = c :: resolveScan resolve cs := by
  unfold resolveScan
  simp only [List.length_cons, resolveScanF, h]

theorem segmentsTco_chars_fuel :
    ∀ (n : Nat) (cs : List Char), cs.length ≤ n →
      ((segmentsTco cs).map TSeg.chars).flatten = cs := by
  intro n
  induction n with
  | zero =>
    intro cs h
    have : cs = [] := List.length_eq_zero.mp (Nat.le_zero.mp h)
    subst this
    simp [segmentsTco_nil]
  | succ n ih =>
    intro cs hlen
    cases h : matchTco cs with
    | some pr =>
      obtain ⟨tok, rest⟩ := pr
      obtain ⟨happ, -⟩ := matchTco_append h
      rw [segmentsTco_match h]
      simp only [List.map_cons, List.flatten_cons, TSeg.chars]
      rw [ih rest (by have := matchTco_length h; omega), happ]
    | none =>
      cases cs with
      | nil => simp [segmentsTco_nil]
      | cons c cs2 =>
        rw [segmentsTco_gap h]
        simp only [List.map_cons, List.flatten_cons, TSeg.chars]
        rw [ih cs2 (by simp at hlen; omega)]
        rfl

theorem segmentsTco_chars (cs : List Char) :
    ((segmentsTco cs).map TSeg.chars).flatten = cs :=
  segmentsTco_chars_fuel cs.length cs le_rfl

theorem resolveScan_eq_render_fuel :
    ∀ (n : Nat) (resolve : String → Option String) (cs : List Char), cs.length ≤ n →
      resolveScan resolve cs = ((segmentsTco cs).map (renderTSeg resolve)).flatten := by
  intro n
  induction n with
  | zero =>
    intro resolve cs h
    have : cs = [] := List.length_eq_zero.mp (Nat.le_zero.mp h)
    subst this
    simp [segmentsTco_nil, resolveScan_nil]
  | succ n ih =>
    intro resolve cs hlen
    cases h : matchTco cs with
    | some pr =>
      obtain ⟨tok, rest⟩ := pr
      rw [segmentsTco_match h, resolveScan_match h]
      simp only [List.map_cons, List.flatten_cons, renderTSeg]
      rw [ih resolve rest (by have := matchTco_length h; omega)]
    | none =>
      cases cs with
      | nil => simp [segmentsTco_nil, resolveScan_nil]
      | cons c cs2 =>
        rw [segmentsTco_gap h, resolveScan_gap h]
        simp only [List.map_cons, List.flatten_cons, renderTSeg]
        rw [ih resolve cs2 (by simp at hlen; omega)]
        rfl

theorem resolveScan_eq_render (resolve : String → Option String) (cs : List Char) :
    resolveScan resolve cs = ((segmentsTco cs).map (renderTSeg resolve)).flatten :=
  resolveScan_eq_render_fuel cs.length resolve cs le_rfl

theorem renderTSeg_eq_chars {resolve : String → Option String} {segs : List TSeg}
    (h : ∀ t, TSeg.tok t ∈ segs → resolve (String.mk t) = none) :
    segs.map (renderTSeg resolve) = segs.map TSeg.chars := by
  induction segs with
  | nil => rfl
  | cons s rest ih =>
    have hrest : ∀ t, TSeg.tok t ∈ rest → resolve (String.mk t) = none :=
      fun t ht => h t (List.mem_cons_of_mem _ ht)
    cases s with
    | gap c => simp [renderTSeg, TSeg.chars, ih hrest]
    | tok t =>
      have := h t (List.mem_cons_self _ _)
      simp [renderTSeg, TSeg.chars, this, ih hrest]

theorem string_mk_data (s : String) : String.mk s.data = s := by
  cases s; rfl

theorem resolve_redirects_render (resolve : String → Option String) (text : String) :
    resolve_redirects resolve text =
      String.mk (((segmentsTco text.data).map (renderTSeg resolve)).flatten) := by
  unfold resolve_redirects
  rw [resolveScan_eq_render]

theorem tok_mem_tcoTokens {cs t : List Char} (h : TSeg.tok t ∈ segmentsTco cs) :
    String.mk t ∈ tcoTokens cs := by
  unfold tcoTokens
  exact List.mem_filterMap.mpr ⟨TSeg.tok t, h, rfl⟩

theorem C6_filter (search : String → String → Bool)
    (pa pr pu pv : String) (ts : List Tweet) :
    (∀ t, t ∈ filter_tweets search ts pa pr pu pv ↔
      t ∈ ts ∧ search pa t.text = true ∧ search pr t.text = false ∧
        search pu t.user = true ∧ search pv t.user = false)
    ∧ ((∀ s, search pr s = true) → filter_tweets search ts pa pr pu pv = [])
    ∧ (∀ ts2, filter_tweets search (ts ++ ts2) pa pr pu pv =
        filter_tweets search ts pa pr pu pv ++ filter_tweets search ts2 pa pr pu pv) := by
  refine ⟨fun t => ?_, fun hrej => ?_, fun ts2 => ?_⟩
  · simp [filter_tweets, List.mem_filter, Bool.and_eq_true, Bool.not_eq_true',
      and_assoc]
  · refine List.filter_eq_nil_iff.mpr fun t _ => ?_
    simp [hrej t.text]
  · simp [filter_tweets, List.filter_append]

theorem C6_filter_w :
    filter_tweets (fun _ _ => true)
      [{ id := 1, created_at := "c", text := "x", user := "u" }] "a" "r" "u" "v" = [] :=
  (C6_filter (fun _ _ => true) "a" "r" "u" "v"
    [{ id := 1, created_at := "c", text := "x", user := "u" }]).2.1 fun _ => rfl

theorem C7_resolve_failure (resolve : String → Option String) (text : String) :
    resolve_redirects resolve text =
      String.mk (((segmentsTco text.data).map (renderTSeg resolve)).flatten)
    ∧ ((∀ tok, tok ∈ tcoTokens text.data → resolve tok = none) →
        resolve_redirects resolve text = text) := by
  refine ⟨resolve_redirects_render resolve text, fun hfail => ?_⟩
  rw [resolve_redirects_render resolve text,
    renderTSeg_eq_chars (fun t ht => hfail _ (tok_mem_tcoTokens ht)),
    segmentsTco_chars, string_mk_data]

theorem C7_resolve_failure_w :
    resolve_redirects (fun _ => none) "a https://t.co/xy z" = "a https://t.co/xy z" :=
  (C7_resolve_failure (fun _ => none) "a https://t.co/xy z").2 fun _ _ => rfl

theorem C8_resolve_subst (resolve : String → Option String) (text : String) :
    resolve_redirects resolve text =
      String.mk (((segmentsTco text.data).map (renderTSeg resolve)).flatten)
    ∧ String.mk (((segmentsTco text.data).map TSeg.chars).flatten) = text
    ∧ (tcoTokens text.data = [] → resolve_redirects resolve text = text)
    ∧ resolve_redirects c8resolve "see https://t.co/abc now"
        = "see https://example.com/page now" := by
  refine ⟨resolve_redirects_render resolve text,
    by rw [segmentsTco_chars, string_mk_data], fun hnotok => ?_, by rfl⟩
  have hno : ∀ t, TSeg.tok t ∈ segmentsTco text.data → resolve (String.mk t) = none := by
    intro t ht
    exact absurd (tok_mem_tcoTokens ht) (by simp [hnotok])
  rw [resolve_redirects_render resolve text, renderTSeg_eq_chars hno,
    segmentsTco_chars, string_mk_data]

theorem C8_resolve_subst_w :
    resolve_redirects c8resolve "plain words" = "plain words" :=
  (C8_resolve_subst c8resolve "plain words").2.2.1 rfl

theorem C10_unescaped_dot :
    (∀ c : Char, c ≠ '\n' → matchTco (tXcoChars c) = some (tXcoChars c, []))
    ∧ tXcoChars 'X' = "https://tXco/abc".data
    ∧ tcoTokens "https://tXco/abc".data = ["https://tXco/abc"]
    ∧ resolve_redirects c10resolve "https://tXco/abc" = "RESOLVED" := by
  refine ⟨fun c hc => ?_, by rfl, by rfl, by rfl⟩
  simp [tXcoChars, matchTco, dropLit, httpsT, coSlash, isAlnumAscii,
    List.takeWhile, List.dropWhile, hc]

theorem C10_unescaped_dot_w :
    matchTco (tXcoChars 'X') = some (tXcoChars 'X', []) :=
  C10_unescaped_dot.1 'X' (by decide)

theorem search_loop_empty_continue {f : String → String} {q : String}
    {since : Option Int} {mp : Int} {r : PageResp} {rest : List PageResp}
    {count retry : Nat} {tweets : List Tweet} {max_id : Option Int}
    (hs : pageStatuses r = []) (hr : retry + 1 < 3) :
    search_loop f q since mp (r :: rest) count retry tweets max_id =
      (search_loop f q since mp rest count (retry + 1) tweets max_id).map
        (fun p => (p.1, (mkReq q max_id since, r) :: p.2)) := by
  simp only [search_loop]
  rw [if_pos hs, if_neg (by omega)]

theorem search_loop_empty_stop {f : String → String} {q : String}
    {since : Option Int} {mp : Int} {r : PageResp} {rest : List PageResp}
    {count retry : Nat} {tweets : List Tweet} {max_id : Option Int}
    (hs : pageStatuses r = []) (hr : retry + 1 ≥ 3) :
    search_loop f q since mp (r :: rest) count retry tweets max_id =
      some (tweets, [(mkReq q max_id since, r)]) := by
  simp only [search_loop]
  rw [if_pos hs, if_pos hr]

theorem search_loop_nonempty_continue {f : String → String} {q : String}
    {since : Option Int} {mp : Int} {r : PageResp} {rest : List PageResp}
    {count retry : Nat} {tweets : List Tweet} {max_id : Option Int}
    (hs : pageStatuses r ≠ []) (hmp : ¬(mp ≠ 0 ∧ mp ≤ (count : Int) + 1)) :
    search_loop f q since mp (r :: rest) count retry tweets max_id =
      (search_loop f q since mp rest (count + 1) 0
          (tweets ++ (pageStatuses r).map (mkTweet f))
          (some (minId (tweets ++ (pageStatuses r).map (mkTweet f)) - 1))).map
        (fun p => (p.1, (mkReq q max_id since, r) :: p.2)) := by
  simp only [search_loop]
  rw [if_neg hs, if_neg hmp]

theorem search_loop_nonempty_stop {f : String → String} {q : String}
    {since : Option Int} {mp : Int} {r : PageResp} {rest : List PageResp}
    {count retry : Nat} {tweets : List Tweet} {max_id : Option Int}
    (hs : pageStatuses r ≠ []) (hmp : mp ≠ 0 ∧ mp ≤ (count : Int) + 1) :
    search_loop f q since mp (r :: rest) count retry tweets max_id =
      some (tweets ++ (pageStatuses r).map (mkTweet f),
            [(mkReq q max_id since, r)]) := by
  simp only [search_loop]
  rw [if_neg hs, if_pos hmp]

theorem sentMaxIds_cons (p : Req × PageResp) (tr : List (Req × PageResp)) :
    sentMaxIds (p :: tr) =
      match p.1.max_id with
      | some m => m :: sentMaxIds tr
      | none => sentMaxIds tr := by
  simp only [sentMaxIds, List.filterMap_cons]
  cases p.1.max_id <;> rfl

theorem sentMaxIds_single (p : Req × PageResp) :
    sentMaxIds [p] =
      match p.1.max_id with
      | some m => [m]
      | none => [] := by
  rw [sentMaxIds_cons]
  cases p.1.max_id <;> rfl

theorem tfoldl_min_le_init (ts : List Tweet) :
    ∀ a : Int, ts.foldl (fun m u => min m u.id) a ≤ a := by
  induction ts with
  | nil => intro a; exact le_rfl
  | cons t ts ih =>
    intro a
    calc (t :: ts).foldl (fun m u => min m u.id) a
        = ts.foldl (fun m u => min m u.id) (min a t.id) := rfl
      _ ≤ min a t.id := ih _
      _ ≤ a := min_le_left _ _

theorem tfoldl_min_le_mem {ts : List Tweet} {t : Tweet} (h : t ∈ ts) :
    ∀ a : Int, ts.foldl (fun m u => min m u.id) a ≤ t.id := by
  induction ts with
  | nil => cases h
  | cons u ts ih =>
    intro a
    rcases List.mem_cons.mp h with rfl | h2
    · calc (t :: ts).foldl (fun m u => min m u.id) a
          = ts.foldl (fun m u => min m u.id) (min a t.id) := rfl
        _ ≤ min a t.id := tfoldl_min_le_init ts _
        _ ≤ t.id := min_le_right _ _
    · exact ih h2 _

theorem minId_le_mem {ts : List Tweet} {t : Tweet} (h : t ∈ ts) :
    minId ts ≤ t.id := by
  cases ts with
  | nil => cases h
  | cons u ts =>
    rcases List.mem_cons.mp h with rfl | h2
    · exact tfoldl_min_le_init ts _
    · exact tfoldl_min_le_mem h2 _

theorem minId_append_le (ts new : List Tweet) (h : ts ≠ []) :
    minId (ts ++ new) ≤ minId ts := by
  cases ts with
  | nil => exact absurd rfl h
  | cons t ts =>
    have hc : (t :: ts) ++ new = t :: (ts ++ new) := rfl
    rw [hc]
    show (ts ++ new).foldl (fun m u => min m u.id) t.id ≤ minId (t :: ts)
    rw [List.foldl_append]
    exact tfoldl_min_le_init new _

theorem sentMaxIds_cons_none {q : String} {since : Option Int} {r : PageResp}
    {tr : List (Req × PageResp)} :
    sentMaxIds ((mkReq q none since, r) :: tr) = sentMaxIds tr := by
  rw [sentMaxIds_cons]
  rfl

theorem sentMaxIds_cons_some {q : String} {m : Int} {since : Option Int}
    {r : PageResp} {tr : List (Req × PageResp)} :
    sentMaxIds ((mkReq q (some m) since, r) :: tr) = m :: sentMaxIds tr := by
  rw [sentMaxIds_cons]
  rfl

theorem sentMaxIds_nil : sentMaxIds [] = [] := rfl

theorem search_loop_maxIds :
    ∀ (resp : List PageResp) (f : String → String) (q : String)
      (since : Option Int) (mp : Int) (count retry : Nat)
      (tweets : List Tweet) (max_id : Option Int)
      (tw : List Tweet) (tr : List (Req × PageResp)),
      MIdInv tweets max_id →
      search_loop f q since mp resp count retry tweets max_id = some (tw, tr) →
      List.Chain' (fun a b => b ≤ a) (sentMaxIds tr) ∧
      (∀ x ∈ sentMaxIds tr, ∀ m, max_id = some m → x ≤ m) := by
  intro resp
  induction resp with
  | nil =>
    intro f q since mp count retry tweets max_id tw tr _ hloop
    cases hloop
  | cons r rest ih =>
    intro f q since mp count retry tweets max_id tw tr hinv hloop
    by_cases hs : pageStatuses r = []
    · by_cases hr : retry + 1 ≥ 3
      · rw [search_loop_empty_stop hs hr] at hloop
        obtain ⟨rfl, rfl⟩ : tweets = tw ∧ [(mkReq q max_id since, r)] = tr := by
          simpa using hloop
        cases max_id with
        | none =>
          rw [show ([(mkReq q none since, r)] : List (Req × PageResp))
              = (mkReq q none since, r) :: [] from rfl, sentMaxIds_cons_none,
            sentMaxIds_nil]
          exact ⟨List.chain'_nil, by intro x hx; cases hx⟩
        | some m =>
          rw [show ([(mkReq q (some m) since, r)] : List (Req × PageResp))
              = (mkReq q (some m) since, r) :: [] from rfl, sentMaxIds_cons_some,
            sentMaxIds_nil]
          refine ⟨List.chain'_singleton m, ?_⟩
          intro x hx m2 hm2
          cases hm2
          rcases List.mem_singleton.mp hx with rfl
          exact le_rfl
      · rw [search_loop_empty_continue hs (by omega)] at hloop
        obtain ⟨⟨tw2, tr2⟩, hrec, heq⟩ := Option.map_eq_some'.mp hloop
        obtain ⟨rfl, rfl⟩ : tw2 = tw ∧ (mkReq q max_id since, r) :: tr2 = tr := by
          simpa using heq
        obtain ⟨hch, hbd⟩ := ih f q since mp count (retry + 1) tweets max_id tw2 tr2
          hinv hrec
        cases max_id with
        | none =>
          rw [sentMaxIds_cons_none]
          refine ⟨hch, ?_⟩
          intro x hx m2 hm2
          cases hm2
        | some m =>
          rw [sentMaxIds_cons_some]
          constructor
          · refine List.chain'_cons'.mpr ⟨?_, hch⟩
            intro y hy
            exact hbd y (List.mem_of_mem_head? hy) m rfl
          · intro x hx m2 hm2
            cases hm2
            rcases List.mem_cons.mp hx with rfl | hx2
            · exact le_rfl
            · exact hbd x hx2 m rfl
    · by_cases hmp : mp ≠ 0 ∧ mp ≤ (count : Int) + 1
      · rw [search_loop_nonempty_stop hs hmp] at hloop
        obtain ⟨rfl, rfl⟩ :
            tweets ++ (pageStatuses r).map (mkTweet f) = tw ∧
              [(mkReq q max_id since, r)] = tr := by
          simpa using hloop
        cases max_id with
        | none =>
          rw [show ([(mkReq q none since, r)] : List (Req × PageResp))
              = (mkReq q none since, r) :: [] from rfl, sentMaxIds_cons_none,
            sentMaxIds_nil]
          exact ⟨List.chain'_nil, by intro x hx; cases hx⟩
        | some m =>
          rw [show ([(mkReq q (some m) since, r)] : List (Req × PageResp))
              = (mkReq q (some m) since, r) :: [] from rfl, sentMaxIds_cons_some,
            sentMaxIds_nil]
          refine ⟨List.chain'_singleton m, ?_⟩
          intro x hx m2 hm2
          cases hm2
          rcases List.mem_singleton.mp hx with rfl
          exact le_rfl
      · rw [search_loop_nonempty_continue hs hmp] at hloop
        obtain ⟨⟨tw2, tr2⟩, hrec, heq⟩ := Option.map_eq_some'.mp hloop
        obtain ⟨rfl, rfl⟩ : tw2 = tw ∧ (mkReq q max_id since, r) :: tr2 = tr := by
          simpa using heq
        have hne2 : tweets ++ (pageStatuses r).map (mkTweet f) ≠ [] := by
          intro hx
          rcases List.append_eq_nil.mp hx with ⟨-, h2⟩
          exact hs (List.map_eq_nil_iff.mp h2)
        have hinv2 : MIdInv (tweets ++ (pageStatuses r).map (mkTweet f))
            (some (minId (tweets ++ (pageStatuses r).map (mkTweet f)) - 1)) := by
          intro m2 hm2
          cases hm2
          exact ⟨hne2, rfl⟩
        obtain ⟨hch, hbd⟩ := ih f q since mp (count + 1) 0 _ _ tw2 tr2 hinv2 hrec
        cases max_id with
        | none =>
          rw [sentMaxIds_cons_none]
          refine ⟨hch, ?_⟩
          intro x hx m2 hm2
          cases hm2
        | some m =>
          obtain ⟨hnetw, hm⟩ := hinv m rfl
          have hmono : minId (tweets ++ (pageStatuses r).map (mkTweet f)) - 1 ≤ m := by
            have := minId_append_le tweets ((pageStatuses r).map (mkTweet f)) hnetw
            omega
          rw [sentMaxIds_cons_some]
          constructor
          · refine List.chain'_cons'.mpr ⟨?_, hch⟩
            intro y hy
            have := hbd y (List.mem_of_mem_head? hy) _ rfl
            omega
          · intro x hx m2 hm2
            cases hm2
            rcases List.mem_cons.mp hx with rfl | hx2
            · exact le_rfl
            · have := hbd x hx2 _ rfl
              omega

theorem destutter_ne_strict :
    ∀ (l : List Int) (a : Int), List.Chain' (fun x y => y ≤ x) (a :: l) →
      ∃ t, List.destutter' (· ≠ ·) a l = a :: t ∧
        List.Chain' (fun x y => y < x) (a :: t) := by
  intro l
  induction l with
  | nil =>
    intro a _
    exact ⟨[], by simp [List.destutter'_nil], List.chain'_singleton a⟩
  | cons b l ih =>
    intro a hch
    obtain ⟨hab, hbl⟩ := List.chain'_cons.mp hch
    by_cases hne : a ≠ b
    · obtain ⟨t, ht, hcht⟩ := ih b hbl
      refine ⟨b :: t, ?_, ?_⟩
      · rw [List.destutter'_cons, if_pos hne, ht]
      · exact List.chain'_cons.mpr ⟨lt_of_le_of_ne hab (fun h2 => hne h2.symm), hcht⟩
    · push_neg at hne
      subst hne
      obtain ⟨t, ht, hcht⟩ := ih a hbl
      exact ⟨t, by rw [List.destutter'_cons, if_neg (by simp)]; exact ht, hcht⟩

theorem chain_ge_destutter {l : List Int}
    (h : List.Chain' (fun x y => y ≤ x) l) :
    List.Chain' (fun x y => y < x) (l.destutter (· ≠ ·)) := by
  cases l with
  | nil => simp [List.destutter_nil]
  | cons a l =>
    obtain ⟨t, ht, hch⟩ := destutter_ne_strict l a h
    rw [List.destutter_cons', ht]
    exact hch

theorem search_loop_head {f : String → String} {q : String} {since : Option Int}
    {mp : Int} {r : PageResp} {rest : List PageResp} {count retry : Nat}
    {tweets : List Tweet} {max_id : Option Int} {tw : List Tweet}
    {tr : List (Req × PageResp)}
    (h : search_loop f q since mp (r :: rest) count retry tweets max_id
      = some (tw, tr)) :
    ∃ tr2, tr = (mkReq q max_id since, r) :: tr2 := by
  by_cases hs : pageStatuses r = []
  · by_cases hr : retry + 1 ≥ 3
    · rw [search_loop_empty_stop hs hr] at h
      obtain ⟨-, rfl⟩ : tweets = tw ∧ [(mkReq q max_id since, r)] = tr := by
        simpa using h
      exact ⟨[], rfl⟩
    · rw [search_loop_empty_continue hs (by omega)] at h
      obtain ⟨⟨tw2, tr2⟩, -, heq⟩ := Option.map_eq_some'.mp h
      obtain ⟨-, rfl⟩ : tw2 = tw ∧ (mkReq q max_id since, r) :: tr2 = tr := by
        simpa using heq
      exact ⟨tr2, rfl⟩
  · by_cases hmp : mp ≠ 0 ∧ mp ≤ (count : Int) + 1
    · rw [search_loop_nonempty_stop hs hmp] at h
      obtain ⟨-, rfl⟩ :
          tweets ++ (pageStatuses r).map (mkTweet f) = tw ∧
            [(mkReq q max_id since, r)] = tr := by
        simpa using h
      exact ⟨[], rfl⟩
    · rw [search_loop_nonempty_continue hs hmp] at h
      obtain ⟨⟨tw2, tr2⟩, -, heq⟩ := Option.map_eq_some'.mp h
      obtain ⟨-, rfl⟩ : tw2 = tw ∧ (mkReq q max_id since, r) :: tr2 = tr := by
        simpa using heq
      exact ⟨tr2, rfl⟩

theorem maxid_not_mem_params (q : String) (since : Option Int) :
    "max_id" ∉ (request_params (mkReq q none since)).map Prod.fst := by
  intro h
  by_cases hq : q = "" <;>
  · rcases since with _ | n
    · simp [request_params, mkReq, hq] at h
    · by_cases hn : n = 0 <;> simp [request_params, mkReq, hq, hn] at h

theorem C4_retry_budget :
    (∀ (f : String → String) (q : String) (since : Option Int) (mp : Int)
       (count : Nat) (tweets : List Tweet) (max_id : Option Int)
       (r1 r2 r3 : PageResp) (rest : List PageResp),
       pageStatuses r1 = [] → pageStatuses r2 = [] → pageStatuses r3 = [] →
       search_loop f q since mp (r1 :: r2 :: r3 :: rest) count 0 tweets max_id =
         some (tweets, [(mkReq q max_id since, r1), (mkReq q max_id since, r2),
                        (mkReq q max_id since, r3)]))
    ∧ (∀ (f : String → String) (resp : List PageResp) (q : String)
         (since : Option Int) (mp : Int),
         (∀ r ∈ resp, pageStatuses r = []) → 3 ≤ resp.length →
         ∃ tr, search_tweets f resp since q mp = some ([], tr) ∧ tr.length = 3)
    ∧ (∀ (f : String → String) (q : String) (since : Option Int) (mp : Int)
         (r : PageResp) (rest : List PageResp) (count retry : Nat)
         (tweets : List Tweet) (max_id : Option Int),
         pageStatuses r ≠ [] → ¬(mp ≠ 0 ∧ mp ≤ (count : Int) + 1) →
         search_loop f q since mp (r :: rest) count retry tweets max_id =
           (search_loop f q since mp rest (count + 1) 0
               (tweets ++ (pageStatuses r).map (mkTweet f))
               (some (minId (tweets ++ (pageStatuses r).map (mkTweet f)) - 1))).map
             (fun p => (p.1, (mkReq q max_id since, r) :: p.2))) := by
  have hA : ∀ (f : String → String) (q : String) (since : Option Int) (mp : Int)
      (count : Nat) (tweets : List Tweet) (max_id : Option Int)
      (r1 r2 r3 : PageResp) (rest : List PageResp),
      pageStatuses r1 = [] → pageStatuses r2 = [] → pageStatuses r3 = [] →
      search_loop f q since mp (r1 :: r2 :: r3 :: rest) count 0 tweets max_id =
        some (tweets, [(mkReq q max_id since, r1), (mkReq q max_id since, r2),
                       (mkReq q max_id since, r3)]) := by
    intro f q since mp count tweets max_id r1 r2 r3 rest h1 h2 h3
    rw [search_loop_empty_continue h1 (by omega),
      search_loop_empty_continue h2 (by omega),
      search_loop_empty_stop h3 (by omega)]
    rfl
  refine ⟨hA, ?_, ?_⟩
  · intro f resp q since mp hall hlen
    cases resp with
    | nil => simp at hlen
    | cons r1 resp1 =>
      cases resp1 with
      | nil => simp at hlen
      | cons r2 resp2 =>
        cases resp2 with
        | nil => simp at hlen
        | cons r3 rest =>
          refine ⟨[(mkReq q none since, r1), (mkReq q none since, r2),
                   (mkReq q none since, r3)], ?_, rfl⟩
          exact hA f q since mp 0 [] none r1 r2 r3 rest
            (hall r1 (by simp)) (hall r2 (by simp)) (hall r3 (by simp))
  · intro f q since mp r rest count retry tweets max_id hs hmp
    exact search_loop_nonempty_continue hs hmp

theorem C4_retry_budget_w :
    search_loop (fun s => s) "kw" none 0 [some [], none, some []] 0 0 [] none =
      some ([], [(mkReq "kw" none none, some []), (mkReq "kw" none none, none),
                 (mkReq "kw" none none, some [])]) :=
  C4_retry_budget.1 (fun s => s) "kw" none 0 0 [] none (some []) none (some []) []
    rfl rfl rfl

theorem C5_maxid_walk :
    (∀ (f : String → String) (r : PageResp) (rest : List PageResp) (q : String)
       (since : Option Int) (mp : Int) (tw : List Tweet)
       (tr : List (Req × PageResp)),
       search_tweets f (r :: rest) since q mp = some (tw, tr) →
       ∃ tr2, tr = (mkReq q none since, r) :: tr2 ∧
         "max_id" ∉ (request_params (mkReq q none since)).map Prod.fst)
    ∧ (∀ (f : String → String) (resp : List PageResp) (q : String)
         (since : Option Int) (mp : Int) (tw : List Tweet)
         (tr : List (Req × PageResp)),
         search_tweets f resp since q mp = some (tw, tr) →
         List.Chain' (fun a b => b < a) ((sentMaxIds tr).destutter (· ≠ ·)))
    ∧ (∀ (f : String → String) (q : String) (since : Option Int) (mp : Int)
         (r : PageResp) (rest : List PageResp) (count retry : Nat)
         (tweets : List Tweet) (max_id : Option Int),
         pageStatuses r = [] → retry + 1 < 3 →
         search_loop f q since mp (r :: rest) count retry tweets max_id =
           (search_loop f q since mp rest count (retry + 1) tweets max_id).map
             (fun p => (p.1, (mkReq q max_id since, r) :: p.2)))
    ∧ (∀ (f : String → String) (q : String) (since : Option Int) (mp : Int)
         (r : PageResp) (rest : List PageResp) (count retry : Nat)
         (tweets : List Tweet) (max_id : Option Int),
         pageStatuses r ≠ [] → ¬(mp ≠ 0 ∧ mp ≤ (count : Int) + 1) →
         search_loop f q since mp (r :: rest) count retry tweets max_id =
           (search_loop f q since mp rest (count + 1) 0
               (tweets ++ (pageStatuses r).map (mkTweet f))
               (some (minId (tweets ++ (pageStatuses r).map (mkTweet f)) - 1))).map
             (fun p => (p.1, (mkReq q max_id since, r) :: p.2))) := by
  refine ⟨?_, ?_, ?_, ?_⟩
  · intro f r rest q since mp tw tr h
    obtain ⟨tr2, rfl⟩ := search_loop_head h
    exact ⟨tr2, rfl, maxid_not_mem_params q since⟩
  · intro f resp q since mp tw tr h
    have hinv : MIdInv [] none := fun m hm => nomatch hm
    obtain ⟨hch, -⟩ := search_loop_maxIds resp f q since mp 0 0 [] none tw tr hinv h
    exact chain_ge_destutter hch
  · intro f q since mp r rest count retry tweets max_id hs hr
    exact search_loop_empty_continue hs (by omega)
  · intro f q since mp r rest count retry tweets max_id hs hmp
    exact search_loop_nonempty_continue hs hmp

theorem C5_maxid_walk_w :
    (∃ tr2, ([(mkReq "kw" none none, (some [wS10] : PageResp))] :
        List (Req × PageResp))
      = (mkReq "kw" none none, (some [wS10] : PageResp)) :: tr2 ∧
      "max_id" ∉ (request_params (mkReq "kw" none none)).map Prod.fst)
    ∧ List.Chain' (fun a b => b < a)
        ((sentMaxIds [(mkReq "kw" none none, (some [wS10] : PageResp))]).destutter
          (· ≠ ·)) := by
  constructor
  · exact C5_maxid_walk.1 (fun s => s) (some [wS10]) [] "kw" none 1
      [mkTweet (fun s => s) wS10] _ rfl
  · exact C5_maxid_walk.2.1 (fun s => s) [some [wS10]] "kw" none 1
      [mkTweet (fun s => s) wS10] _ rfl

theorem C1_keyword_change_crash :
    (∀ (env : Env) (tl : List Tweet) (fl : List String),
      runMain env c1Args
          { config := some c1Config, tweetsLog := tl, filteredLog := fl }
        = some (.error (.keyError "search_condition")))
    ∧ (∃ cfg, mergeConfig c1Args (some c1Config) = .ok (cfg, some "foo") ∧
        cfg.latest_tweet_id = none ∧ cfg.search_keywords = "bar")
    ∧ "search_condition" ∉ configKeys := by
  exact ⟨fun env tl fl => rfl, ⟨_, rfl, rfl, rfl⟩, by decide⟩

theorem C9_idempotent_empty_fetch :
    ∀ (env : Env) (args : Args) (fs : FileState) (c : Config)
      (tr : List (Req × PageResp)),
      args.recreate_filtered_txt = false →
      fs.config = some c →
      (args.search_keywords = none ∨ args.search_keywords = some c.search_keywords) →
      search_tweets (resolve_redirects env.resolve) env.responses
        c.latest_tweet_id c.search_keywords args.max_pages = some ([], tr) →
      runMain env args fs = some (.ok (fs, tr)) := by
  intro env args fs c tr hrec hfs hsk hfetch
  have hmerge : mergeConfig args fs.config =
      .ok ({ search_keywords := c.search_keywords,
             accept_regexp_text := args.accept_regexp_text.getD c.accept_regexp_text,
             reject_regexp_text := args.reject_regexp_text.getD c.reject_regexp_text,
             accept_regexp_user := args.accept_regexp_user.getD c.accept_regexp_user,
             reject_regexp_user := args.reject_regexp_user.getD c.reject_regexp_user,
             auth_json_path := args.auth_json_path.getD c.auth_json_path,
             latest_tweet_id := c.latest_tweet_id }, none) := by
    rw [hfs]
    rcases hsk with hnone | hsome
    · simp [mergeConfig, hnone]
    · simp [mergeConfig, hsome]
  simp only [runMain, hmerge, oldKeywordsGate, hfetch]
  have hsort : sortById [] = [] := rfl
  simp [hsort, hrec]

theorem C9_idempotent_empty_fetch_w :
    runMain w9Env w9Args w9FS =
      some (.ok (w9FS,
        [(mkReq "kw" none (some 5), (some [] : PageResp)),
         (mkReq "kw" none (some 5), (some [] : PageResp)),
         (mkReq "kw" none (some 5), (some [] : PageResp))])) :=
  C9_idempotent_empty_fetch w9Env w9Args w9FS w9Config _ rfl rfl (Or.inl rfl) rfl

theorem sortById_perm (l : List Tweet) : List.Perm (sortById l) l :=
  List.perm_insertionSort _ l

theorem sortById_chain {l : List Tweet} (hnd : (l.map Tweet.id).Nodup) :
    List.Chain' (fun a b => a.id < b.id) (sortById l) := by
  have hs : List.Sorted (fun a b : Tweet => a.id ≤ b.id) (sortById l) :=
    List.sorted_insertionSort _ l
  have hnd2 : ((sortById l).map Tweet.id).Nodup :=
    (((sortById_perm l).map Tweet.id).nodup_iff).mpr hnd
  have hne : List.Pairwise (fun a b : Tweet => a.id ≠ b.id) (sortById l) :=
    List.pairwise_map.mp hnd2
  have hlt : List.Pairwise (fun a b : Tweet => a.id < b.id) (sortById l) :=
    (hs.and hne).imp fun h => lt_of_le_of_ne h.1 h.2
  exact hlt.chain'

theorem chain_nodup_ids {l : List Tweet}
    (h : List.Chain' (fun a b => a.id < b.id) l) : (l.map Tweet.id).Nodup := by
  have hp : List.Pairwise (fun a b : Tweet => a.id < b.id) l :=
    List.chain'_iff_pairwise.mp h
  exact List.pairwise_map.mpr (hp.imp fun h2 => ne_of_lt h2)

theorem getLastD_mem : ∀ (l : List Tweet) (d : Tweet), l ≠ [] → l.getLastD d ∈ l := by
  intro l
  induction l with
  | nil => intro d h; exact absurd rfl h
  | cons a l ih =>
    intro d _
    cases l with
    | nil => simp
    | cons b l2 =>
      rw [List.getLastD_cons]
      exact List.mem_cons_of_mem a (ih a (by simp))

theorem getLastD_append :
    ∀ (l1 : List Tweet) {l2 : List Tweet} (d : Tweet), l2 ≠ [] →
      (l1 ++ l2).getLastD d = l2.getLastD d := by
  intro l1
  induction l1 with
  | nil => intro l2 d _; rfl
  | cons a l1 ih =>
    intro l2 d h
    cases l2 with
    | nil => exact absurd rfl h
    | cons b l2' =>
      rw [List.cons_append, List.getLastD_cons, ih a (by simp)]
      rw [List.getLastD_cons, List.getLastD_cons]

theorem chain_le_getLastD :
    ∀ (l : List Tweet) (d : Tweet), List.Chain' (fun a b => a.id < b.id) l →
      ∀ t ∈ l, t.id ≤ (l.getLastD d).id := by
  intro l
  induction l with
  | nil => intro d _ t ht; cases ht
  | cons a l ih =>
    intro d h t ht
    cases l with
    | nil =>
      rcases List.mem_singleton.mp ht with rfl
      simp
    | cons b l2 =>
      obtain ⟨hab, hbl⟩ := List.chain'_cons.mp h
      rw [List.getLastD_cons]
      rcases List.mem_cons.mp ht with rfl | ht2
      · have hble := ih t hbl b (by simp)
        omega
      · exact ih a hbl t ht2

theorem mkTweet_id (f : String → String) (s : RawStatus) :
    (mkTweet f s).id = s.id := rfl

theorem search_loop_sound :
    ∀ (resp : List PageResp) (f : String → String) (q : String)
      (since : Option Int) (mp : Int) (count retry : Nat)
      (tweets : List Tweet) (max_id : Option Int)
      (tw : List Tweet) (tr : List (Req × PageResp)),
      FetchAcc since tweets max_id →
      search_loop f q since mp resp count retry tweets max_id = some (tw, tr) →
      HonorTrace tr →
      (tw.map Tweet.id).Nodup ∧
      ∀ t ∈ tw, 0 < t.id ∧ ∀ m, since = some m → m < t.id := by
  intro resp
  induction resp with
  | nil =>
    intro f q since mp count retry tweets max_id tw tr _ hloop _
    cases hloop
  | cons r rest ih =>
    intro f q since mp count retry tweets max_id tw tr hacc hloop htr
    by_cases hs : pageStatuses r = []
    · by_cases hr : retry + 1 ≥ 3
      · rw [search_loop_empty_stop hs hr] at hloop
        obtain ⟨rfl, rfl⟩ : tweets = tw ∧ [(mkReq q max_id since, r)] = tr := by
          simpa using hloop
        exact ⟨hacc.1, hacc.2.1⟩
      · rw [search_loop_empty_continue hs (by omega)] at hloop
        obtain ⟨⟨tw2, tr2⟩, hrec, heq⟩ := Option.map_eq_some'.mp hloop
        obtain ⟨rfl, rfl⟩ : tw2 = tw ∧ (mkReq q max_id since, r) :: tr2 = tr := by
          simpa using heq
        exact ih f q since mp count (retry + 1) tweets max_id tw2 tr2 hacc hrec
          fun p hp => htr p (List.mem_cons_of_mem _ hp)
    · have hgrow : FetchAcc since (tweets ++ (pageStatuses r).map (mkTweet f))
          (some (minId (tweets ++ (pageStatuses r).map (mkTweet f)) - 1)) →
          True := fun _ => trivial
      have hids : ((pageStatuses r).map (mkTweet f)).map Tweet.id =
          (pageStatuses r).map RawStatus.id := by
        rw [List.map_map]; rfl
      by_cases hmp : mp ≠ 0 ∧ mp ≤ (count : Int) + 1
      · rw [search_loop_nonempty_stop hs hmp] at hloop
        obtain ⟨rfl, rfl⟩ :
            tweets ++ (pageStatuses r).map (mkTweet f) = tw ∧
              [(mkReq q max_id since, r)] = tr := by
          simpa using hloop
        have hhon : HonorResp (mkReq q max_id since) r :=
          htr (mkReq q max_id since, r) (by simp)
        constructor
        · rw [List.map_append, hids]
          refine List.Nodup.append hacc.1 hhon.1 ?_
          intro x hx1 hx2
          obtain ⟨t, ht, rfl⟩ := List.mem_map.mp hx1
          obtain ⟨s, hsmem, hsid⟩ := List.mem_map.mp hx2
          cases hmx : max_id with
          | none =>
            rw [hacc.2.2.1 hmx] at ht
            cases ht
          | some m =>
            have h1 : m < t.id := hacc.2.2.2 m hmx t ht
            have h2 : s.id ≤ m := ((hhon.2 s hsmem).2.2) m (by simp [mkReq, hmx])
            omega
        · intro t ht
          rcases List.mem_append.mp ht with ht1 | ht2
          · exact hacc.2.1 t ht1
          · obtain ⟨s, hsmem, rfl⟩ := List.mem_map.mp ht2
            obtain ⟨hpos, hsince, -⟩ := hhon.2 s hsmem
            exact ⟨hpos, fun m hm => hsince m (by simp [mkReq, hm])⟩
      · rw [search_loop_nonempty_continue hs hmp] at hloop
        obtain ⟨⟨tw2, tr2⟩, hrec, heq⟩ := Option.map_eq_some'.mp hloop
        obtain ⟨rfl, rfl⟩ : tw2 = tw ∧ (mkReq q max_id since, r) :: tr2 = tr := by
          simpa using heq
        have hhon : HonorResp (mkReq q max_id since) r :=
          htr (mkReq q max_id since, r) (by simp)
        have hnd2 : ((tweets ++ (pageStatuses r).map (mkTweet f)).map Tweet.id).Nodup := by
          rw [List.map_append, hids]
          refine List.Nodup.append hacc.1 hhon.1 ?_
          intro x hx1 hx2
          obtain ⟨t, ht, rfl⟩ := List.mem_map.mp hx1
          obtain ⟨s, hsmem, hsid⟩ := List.mem_map.mp hx2
          cases hmx : max_id with
          | none =>
            rw [hacc.2.2.1 hmx] at ht
            cases ht
          | some m =>
            have h1 : m < t.id := hacc.2.2.2 m hmx t ht
            have h2 : s.id ≤ m := ((hhon.2 s hsmem).2.2) m (by simp [mkReq, hmx])
            omega
        have hbound : ∀ t ∈ tweets ++ (pageStatuses r).map (mkTweet f),
            0 < t.id ∧ ∀ m, since = some m → m < t.id := by
          intro t ht
          rcases List.mem_append.mp ht with ht1 | ht2
          · exact hacc.2.1 t ht1
          · obtain ⟨s, hsmem, rfl⟩ := List.mem_map.mp ht2
            obtain ⟨hpos, hsince, -⟩ := hhon.2 s hsmem
            exact ⟨hpos, fun m hm => hsince m (by simp [mkReq, hm])⟩
        have hacc2 : FetchAcc since (tweets ++ (pageStatuses r).map (mkTweet f))
            (some (minId (tweets ++ (pageStatuses r).map (mkTweet f)) - 1)) := by
          refine ⟨hnd2, hbound, ?_, ?_⟩
          · intro h
            cases h
          · intro m hm t ht
            cases hm
            have := minId_le_mem ht
            omega
        exact ih f q since mp (count + 1) 0 _ _ tw2 tr2 hacc2 hrec
          fun p hp => htr p (List.mem_cons_of_mem _ hp)

theorem getLastD_of_getLast? {l : List Tweet} {x d : Tweet}
    (h : l.getLast? = some x) : l.getLastD d = x := by
  rw [List.getLastD_eq_getLast?, h]
  rfl

theorem write_bundle {cfg : Config} {log fetched prevL : List Tweet}
    (hchain : List.Chain' (fun a b => a.id < b.id) log)
    (hpos : ∀ t ∈ log, 0 < t.id)
    (hcur : ∀ m, cfg.latest_tweet_id = some m →
      log ≠ [] ∧ m = (log.getLastD default).id)
    (hnil : cfg.latest_tweet_id = none → log = [])
    (hnodupF : (fetched.map Tweet.id).Nodup)
    (hboundF : ∀ t ∈ fetched, 0 < t.id ∧
      ∀ m, cfg.latest_tweet_id = some m → m < t.id)
    (hprev : prevL = log ∨ prevL = [])
    (hguard : ¬(prevL = [] ∧ sortById fetched = [])) :
    ((prevL ++ sortById (sortById fetched)).getLastD default).id
        = ((log ++ sortById (sortById fetched)).getLastD default).id ∧
    List.Chain' (fun a b => a.id < b.id) (log ++ sortById (sortById fetched)) ∧
    (∀ t ∈ log ++ sortById (sortById fetched), 0 < t.id) ∧
    log ++ sortById (sortById fetched) ≠ [] ∧
    (∀ m, cfg.latest_tweet_id = some m →
      m ≤ ((prevL ++ sortById (sortById fetched)).getLastD default).id) := by
  have hperm : List.Perm (sortById (sortById fetched)) fetched :=
    (sortById_perm _).trans (sortById_perm _)
  have hnodup1 : ((sortById fetched).map Tweet.id).Nodup :=
    (((sortById_perm fetched).map Tweet.id).nodup_iff).mpr hnodupF
  have hchain2 : List.Chain' (fun a b => a.id < b.id) (sortById (sortById fetched)) :=
    sortById_chain hnodup1
  have hmem2 : ∀ t ∈ sortById (sortById fetched),
      0 < t.id ∧ ∀ m, cfg.latest_tweet_id = some m → m < t.id :=
    fun t ht => hboundF t (hperm.subset ht)
  by_cases htw : sortById (sortById fetched) = []
  · have hfe : fetched = [] := by
      have h5 := hperm.symm
      rw [htw] at h5
      exact h5.eq_nil
    have hfe2 : sortById fetched = [] := by rw [hfe]; rfl
    have hprevne : prevL ≠ [] := fun hp => hguard ⟨hp, hfe2⟩
    have hprevlog : prevL = log := by
      rcases hprev with h | h
      · exact h
      · exact absurd h hprevne
    subst hprevlog
    constructor
    · rfl
    refine ⟨by simpa [htw] using hchain, by simpa [htw] using hpos,
      by simpa [htw] using hprevne, ?_⟩
    intro m hm
    rw [htw, List.append_nil, (hcur m hm).2]
  · have hjunction : ∀ x ∈ log.getLast?,
        ∀ y ∈ (sortById (sortById fetched)).head?, x.id < y.id := by
      intro x hx y hy
      have hymem : y ∈ sortById (sortById fetched) := List.mem_of_mem_head? hy
      cases hcl : cfg.latest_tweet_id with
      | none =>
        rw [hnil hcl] at hx
        cases hx
      | some m =>
        obtain ⟨hne, hmeq⟩ := hcur m hcl
        have hxeq : log.getLastD default = x :=
          getLastD_of_getLast? (by simpa using hx)
        have hxid : (log.getLastD default).id = x.id := by rw [hxeq]
        have hlt := (hmem2 y hymem).2 m hcl
        omega
    have hL : ((prevL ++ sortById (sortById fetched)).getLastD default) =
        (sortById (sortById fetched)).getLastD default :=
      getLastD_append _ default htw
    have hL2 : ((log ++ sortById (sortById fetched)).getLastD default) =
        (sortById (sortById fetched)).getLastD default :=
      getLastD_append _ default htw
    refine ⟨by rw [hL, hL2], List.Chain'.append hchain hchain2 hjunction, ?_, ?_, ?_⟩
    · intro t ht
      rcases List.mem_append.mp ht with ht1 | ht2
      · exact hpos t ht1
      · exact (hmem2 t ht2).1
    · intro hx
      rcases List.append_eq_nil.mp hx with ⟨-, h2⟩
      exact htw h2
    · intro m hm
      have hlast : (sortById (sortById fetched)).getLastD default
          ∈ sortById (sortById fetched) := getLastD_mem _ default htw
      have hlt := (hmem2 _ hlast).2 m hm
      rw [hL]
      omega

theorem runMain_write {env : Env} {args : Args} {fs fs2 : FileState} {cfg : Config}
    {tr : List (Req × PageResp)}
    (hmerge : mergeConfig args fs.config = .ok (cfg, none))
    (hrun : runMain env args fs = some (.ok (fs2, tr)))
    (htr : HonorTrace tr)
    (hchain : List.Chain' (fun a b => a.id < b.id) fs.tweetsLog)
    (hpos : ∀ t ∈ fs.tweetsLog, 0 < t.id)
    (hcur : ∀ m, cfg.latest_tweet_id = some m →
      fs.tweetsLog ≠ [] ∧ m = ((fs.tweetsLog).getLastD default).id)
    (hnil : cfg.latest_tweet_id = none → fs.tweetsLog = []) :
    fs2 = fs ∨
    ∃ L, fs2.config = some { cfg with latest_tweet_id := some L } ∧
      List.Chain' (fun a b => a.id < b.id) fs2.tweetsLog ∧
      (∀ t ∈ fs2.tweetsLog, 0 < t.id) ∧
      fs2.tweetsLog ≠ [] ∧
      L = ((fs2.tweetsLog).getLastD default).id ∧
      (∃ suf, fs2.tweetsLog = fs.tweetsLog ++ suf) ∧
      (∀ m, cfg.latest_tweet_id = some m → m ≤ L) := by
  simp only [runMain, hmerge, oldKeywordsGate] at hrun
  cases hfetch : search_tweets (resolve_redirects env.resolve) env.responses
      cfg.latest_tweet_id cfg.search_keywords args.max_pages with
  | none =>
    simp only [hfetch] at hrun
    exact absurd hrun (by simp)
  | some pr =>
    obtain ⟨fetched, tr0⟩ := pr
    simp only [hfetch] at hrun
    have hsound := search_loop_sound env.responses (resolve_redirects env.resolve)
      cfg.search_keywords cfg.latest_tweet_id args.max_pages 0 0 [] none fetched tr0
      ⟨by simp, by simp, fun _ => rfl, fun m hm => nomatch hm⟩ hfetch
    split at hrun
    · next hrecT =>
      split at hrun
      · next hguard =>
        left
        injection hrun with h1
        injection h1 with h2
        injection h2 with h3 h4
        exact h3.symm
      · next hguard =>
        injection hrun with h1
        injection h1 with h2
        injection h2 with h3 h4
        subst h3
        subst h4
        right
        obtain ⟨hnodupF, hboundF⟩ := hsound htr
        obtain ⟨hLeq, hch, hp, hne, hmono⟩ :=
          write_bundle hchain hpos hcur hnil hnodupF hboundF (Or.inl rfl) hguard
        exact ⟨_, rfl, hch, hp, hne, hLeq, ⟨_, rfl⟩, hmono⟩
    · next hrecF =>
      split at hrun
      · next hguard =>
        left
        injection hrun with h1
        injection h1 with h2
        injection h2 with h3 h4
        exact h3.symm
      · next hguard =>
        injection hrun with h1
        injection h1 with h2
        injection h2 with h3 h4
        subst h3
        subst h4
        right
        obtain ⟨hnodupF, hboundF⟩ := hsound htr
        obtain ⟨hLeq, hch, hp, hne, hmono⟩ :=
          write_bundle hchain hpos hcur hnil hnodupF hboundF (Or.inr rfl) hguard
        exact ⟨_, rfl, hch, hp, hne, hLeq, ⟨_, rfl⟩, hmono⟩

theorem good_step {env : Env} {args : Args} {fs fs2 : FileState}
    {tr : List (Req × PageResp)}
    (hinv : INV fs) (hsq : SameQuery args fs)
    (hrun : runMain env args fs = some (.ok (fs2, tr))) (htr : HonorTrace tr) :
    INV fs2 ∧ (∃ suf, fs2.tweetsLog = fs.tweetsLog ++ suf) ∧
    (∀ c m c2 m2, fs.config = some c → c.latest_tweet_id = some m →
      fs2.config = some c2 → c2.latest_tweet_id = some m2 → m ≤ m2) := by
  obtain ⟨hchain, hpos, hcfg⟩ := hinv
  cases hc : fs.config with
  | none =>
    simp only [hc] at hcfg
    cases hsk : args.search_keywords with
    | none =>
      have hmerge : mergeConfig args fs.config = .error .keywordsRequired := by
        rw [hc]
        simp [mergeConfig, hsk]
      simp only [runMain, hmerge] at hrun
      exact absurd hrun (by simp)
    | some sk =>
      cases hmg : mergeConfig args fs.config with
      | error e =>
        simp only [runMain, hmg] at hrun
        exact absurd hrun (by simp)
      | ok p =>
        obtain ⟨cfg, old⟩ := p
        have hmg2 := hmg
        rw [hc] at hmg2
        simp only [mergeConfig, hsk] at hmg2
        injection hmg2 with h5
        injection h5 with h6 h7
        have hlat : cfg.latest_tweet_id = none := by rw [← h6]
        subst h7
        have hw := runMain_write hmg hrun htr hchain hpos
          (fun m hm => absurd hm (by rw [hlat]; simp))
          (fun _ => hcfg)
        rcases hw with rfl | ⟨L, hconf, hch2, hp2, hne2, hLeq, hsuf, hmono⟩
        · refine ⟨⟨hchain, hpos, ?_⟩, ⟨[], by simp⟩, ?_⟩
          · simp only [hc]
            exact hcfg
          · intro c' m c2 m2 hfc hcm hfc2 hcm2
            exact Option.noConfusion hfc
        · refine ⟨⟨hch2, hp2, ?_⟩, hsuf, ?_⟩
          · simp only [hconf]
            refine ⟨hne2, ?_⟩
            rw [hLeq]
          · intro c' m c2 m2 hfc hcm hfc2 hcm2
            exact Option.noConfusion hfc
  | some c =>
    simp only [hc] at hcfg
    obtain ⟨hlogne, hlast⟩ := hcfg
    cases hmg : mergeConfig args fs.config with
    | error e =>
      simp only [runMain, hmg] at hrun
      exact absurd hrun (by simp)
    | ok p =>
      obtain ⟨cfg, old⟩ := p
      have hmg2 := hmg
      rw [hc] at hmg2
      have hlat : cfg.latest_tweet_id = c.latest_tweet_id ∧ old = none := by
        cases hsk : args.search_keywords with
        | none =>
          simp only [mergeConfig, hsk] at hmg2
          injection hmg2 with h5
          injection h5 with h6 h7
          exact ⟨by rw [← h6], h7.symm⟩
        | some s =>
          have hseq : s = c.search_keywords := by
            have := hsq
            rw [SameQuery, hc, hsk] at this
            exact this
          simp only [mergeConfig, hsk, hseq, if_pos] at hmg2
          injection hmg2 with h5
          injection h5 with h6 h7
          exact ⟨by rw [← h6], h7.symm⟩
      obtain ⟨hlat, rfl⟩ := hlat
      have hcur : ∀ m, cfg.latest_tweet_id = some m →
          fs.tweetsLog ≠ [] ∧ m = ((fs.tweetsLog).getLastD default).id := by
        intro m hm
        rw [hlat, hlast] at hm
        injection hm with hm2
        exact ⟨hlogne, hm2.symm⟩
      have hnil : cfg.latest_tweet_id = none → fs.tweetsLog = [] := by
        intro hm
        rw [hlat, hlast] at hm
        cases hm
      have hw := runMain_write hmg hrun htr hchain hpos hcur hnil
      rcases hw with rfl | ⟨L, hconf, hch2, hp2, hne2, hLeq, hsuf, hmono⟩
      · refine ⟨⟨hchain, hpos, ?_⟩, ⟨[], by simp⟩, ?_⟩
        · simp only [hc]
          exact ⟨hlogne, hlast⟩
        · intro c' m c2 m2 hfc hcm hfc2 hcm2
          injection hfc with hfc
          subst hfc
          rw [hc] at hfc2
          injection hfc2 with hfc2
          subst hfc2
          rw [hcm] at hcm2
          injection hcm2 with hcm2
          omega
      · refine ⟨⟨hch2, hp2, ?_⟩, hsuf, ?_⟩
        · simp only [hconf]
          refine ⟨hne2, ?_⟩
          rw [hLeq]
        · intro c' m c2 m2 hfc hcm hfc2 hcm2
          injection hfc with hfc
          subst hfc
          rw [hconf] at hfc2
          injection hfc2 with hfc2
          have hc2lat : c2.latest_tweet_id = some L := by rw [← hfc2]
          rw [hc2lat] at hcm2
          injection hcm2 with hcm2
          have hmle : m ≤ L := hmono m (by rw [hlat, hcm])
          omega

theorem goodReach_INV : ∀ {fs : FileState}, GoodReach fs → INV fs := by
  intro fs h
  induction h with
  | init =>
    exact ⟨List.chain'_nil, by simp [initialFS], by simp [initialFS]⟩
  | step hre hsq hrun htr ih =>
    exact (good_step ih hsq hrun htr).1

theorem C3_log_append_sorted :
    ∀ (fs : FileState) (env : Env) (args : Args) (fs2 : FileState)
      (tr : List (Req × PageResp)),
      GoodReach fs → SameQuery args fs →
      runMain env args fs = some (.ok (fs2, tr)) → HonorTrace tr →
      (∃ suf, fs2.tweetsLog = fs.tweetsLog ++ suf) ∧
      List.Chain' (fun a b => a.id < b.id) fs2.tweetsLog ∧
      (fs2.tweetsLog.map Tweet.id).Nodup := by
  intro fs env args fs2 tr hre hsq hrun htr
  obtain ⟨hinv2, hsuf, -⟩ := good_step (goodReach_INV hre) hsq hrun htr
  exact ⟨hsuf, hinv2.1, chain_nodup_ids hinv2.1⟩

theorem C2_cursor_max :
    ∀ (fs : FileState) (env : Env) (args : Args) (fs2 : FileState)
      (tr : List (Req × PageResp)),
      GoodReach fs → SameQuery args fs →
      runMain env args fs = some (.ok (fs2, tr)) → HonorTrace tr →
      (∀ c2, fs2.config = some c2 →
        ∃ L, c2.latest_tweet_id = some L ∧
          (∀ t ∈ fs2.tweetsLog, t.id ≤ L) ∧
          ∃ t, t ∈ fs2.tweetsLog ∧ t.id = L)
      ∧ (∀ c m c2 m2, fs.config = some c → c.latest_tweet_id = some m →
          fs2.config = some c2 → c2.latest_tweet_id = some m2 → m ≤ m2) := by
  intro fs env args fs2 tr hre hsq hrun htr
  obtain ⟨hinv2, -, hmono⟩ := good_step (goodReach_INV hre) hsq hrun htr
  obtain ⟨hch, hpos, hcfg⟩ := hinv2
  refine ⟨?_, hmono⟩
  intro c2 hc2
  simp only [hc2] at hcfg
  obtain ⟨hne, hlat⟩ := hcfg
  exact ⟨(fs2.tweetsLog.getLastD default).id, hlat,
    fun t ht => chain_le_getLastD _ default hch t ht,
    ⟨_, getLastD_mem _ default hne, rfl⟩⟩

theorem C3_log_append_sorted_w :
    (∃ suf, wFSA.tweetsLog = initialFS.tweetsLog ++ suf) ∧
    List.Chain' (fun a b => a.id < b.id) wFSA.tweetsLog ∧
    (wFSA.tweetsLog.map Tweet.id).Nodup :=
  C3_log_append_sorted initialFS wEnvA wArgsA wFSA
    [(mkReq "kw" none none, some [wS10])] GoodReach.init trivial rfl (by decide)

theorem C2_cursor_max_w :
    (∀ c2, wFSB.config = some c2 →
      ∃ L, c2.latest_tweet_id = some L ∧
        (∀ t ∈ wFSB.tweetsLog, t.id ≤ L) ∧
        ∃ t, t ∈ wFSB.tweetsLog ∧ t.id = L)
    ∧ (∀ c m c2 m2, initialFS.config = some c → c.latest_tweet_id = some m →
        wFSB.config = some c2 → c2.latest_tweet_id = some m2 → m ≤ m2) :=
  C2_cursor_max initialFS wEnvB wArgsB wFSB
    [(mkReq "kb" none none, some [wS11])] GoodReach.init trivial rfl (by decide)

theorem C3_log_cex :
    runMain cx3Env cx3Args1 initialFS =
      some (.ok (cx3FS1, [(mkReq "" none none, (some [cxS20] : PageResp))])) ∧
    runMain cx3Env cx3Args2 cx3FS1 =
      some (.ok (cx3FS2, [(mkReq "b" none none, (some [cxS20] : PageResp))])) ∧
    HonorTrace [(mkReq "" none none, (some [cxS20] : PageResp))] ∧
    HonorTrace [(mkReq "b" none none, (some [cxS20] : PageResp))] ∧
    cx3FS2.tweetsLog.map Tweet.id = [20, 20] ∧
    ¬(cx3FS2.tweetsLog.map Tweet.id).Nodup :=
  ⟨rfl, rfl, by decide, by decide, rfl, by decide⟩

theorem C2_cursor_cex :
    runMain cx2Env1 cx2Args1 initialFS =
      some (.ok (cx2FS1, [(mkReq "" none none, (some [cxS30] : PageResp))])) ∧
    runMain cx2Env2 cx2Args2 cx2FS1 =
      some (.ok (cx2FS2, [(mkReq "b" none none, (some [cxS7] : PageResp))])) ∧
    HonorTrace [(mkReq "" none none, (some [cxS30] : PageResp))] ∧
    HonorTrace [(mkReq "b" none none, (some [cxS7] : PageResp))] ∧
    cx2FS2.config = some cx2Cfg2 ∧
    cx2Cfg2.latest_tweet_id = some 7 ∧
    cx2FS2.tweetsLog.map Tweet.id = [30, 7] ∧
    ¬(∀ t ∈ cx2FS2.tweetsLog, t.id ≤ 7) :=
  ⟨rfl, rfl, by decide, by decide, rfl, rfl, rfl, by decide⟩
